import Mathlib

/-!
Verification development for the webcam/YouTube snapshot service.

The definitions below are a shallow embedding of the TypeScript sources
(`webcam-snapshot.ts`, `youtube-snapshot.ts`, the CORS helpers, and the
shared `gif-config.ts`).  External effects (subprocess exit statuses,
filesystem stat results, network fetches, the clock) are passed in as an
explicit environment record; fallible code is modelled with `Except`,
and the observable control flow of a pipeline run is recorded as a list
of events so ordering properties can be stated.
-/

/-! ## URL / video-id extractor (`extractYouTubeVideoId`)

The source matches two regular expressions in order:
  `/(?:youtube\.com\/watch\?v=|youtu\.be\/)([^&\n?#]+)/`
  `/youtube\.com\/embed\/([^&\n?#]+)/`
We embed the exact matching semantics for these patterns: scan start
positions left to right; at each position try the alternative literals
in order; a literal match must be followed by a non-empty maximal run
of characters outside the class `&`, newline, `?`, `#`, which is the
captured identifier. -/

def stopChar (c : Char) : Bool :=
  c == '&' || c == '\n' || c == '?' || c == '#'

def isPrefOf : List Char → List Char → Bool
  | [], _ => true
  | _ :: _, [] => false
  | a :: as, b :: bs => a == b && isPrefOf as bs

/-- JavaScript `s.startsWith(pre)`, computed on the character lists. -/
def strStartsWith (s pre : String) : Bool :=
  isPrefOf pre.toList s.toList

/-- JavaScript `s.endsWith(suf)`, computed on the character lists. -/
def strEndsWith (s suf : String) : Bool :=
  isPrefOf suf.toList.reverse s.toList.reverse

/-- JavaScript `s.toLowerCase()` (ASCII range, which is all the service
compares). -/
def strToLower (s : String) : String :=
  String.mk (s.toList.map Char.toLower)

def tryPattern (lits : List (List Char)) (cs : List Char) : Option (List Char) :=
  match lits with
  | [] => none
  | lit :: rest =>
    if isPrefOf lit cs then
      let cap := (cs.drop lit.length).takeWhile (fun c => !stopChar c)
      if cap.isEmpty then tryPattern rest cs else some cap
    else tryPattern rest cs

def scanMatch (lits : List (List Char)) : List Char → Option (List Char)
  | [] => none
  | c :: cs =>
    match tryPattern lits (c :: cs) with
    | some r => some r
    | none => scanMatch lits cs

def watchLits : List (List Char) :=
  ["youtube.com/watch?v=".toList, "youtu.be/".toList]

def embedLits : List (List Char) :=
  ["youtube.com/embed/".toList]

def extractYouTubeVideoIdL (cs : List Char) : Option (List Char) :=
  match scanMatch watchLits cs with
  | some r => some r
  | none => scanMatch embedLits cs

def extractYouTubeVideoId (url : String) : Option String :=
  (extractYouTubeVideoIdL url.toList).map fun cs => String.mk cs

/-- Does `lit` occur as a contiguous subsequence of `cs`?  Used to state
side conditions under which the second pattern can fire. -/
def containsSeq (lit : List Char) : List Char → Bool
  | [] => isPrefOf lit []
  | c :: cs => isPrefOf lit (c :: cs) || containsSeq lit cs

/-! ## YouTube snapshot pipeline (`youtube-snapshot.ts`) -/

structure YouTubeSnapshotResult where
  jpgFilename : String
  gifFilename : String
deriving DecidableEq, Repr

/-- Environment of one pipeline run: outcomes of the external
collaborators (thumbnail fetch, ffmpeg static-gif run, yt-dlp exit
status, the stat of the temporary file it leaves behind, the two ffmpeg
extraction runs) and the timestamp read from the clock. -/
structure PipelineEnv where
  thumbnailFetchOk : Bool
  staticGifOk : Bool
  ytdlpSuccess : Bool
  tempFileStat : Option Nat
  ffmpegJpgOk : Bool
  ffmpegGifOk : Bool
  timestamp : String
deriving DecidableEq, Repr

inductive PipelineEvent where
  | thumbnailAttempt
  | downloadAttempt
  | extractAttempt
  | cleanupTemp
deriving DecidableEq, Repr

/-- `isValidVideoFile`: `Deno.stat` succeeding with `size > 0`; a stat
failure (missing file) is caught and reported as `false`. -/
def isValidVideoFile : Option Nat → Bool
  | none => false
  | some sz => decide (0 < sz)

inductive FsError where
  | notFound
deriving DecidableEq, Repr

/-- `Deno.remove` on the modelled stat: succeeds when the file exists,
raises `NotFound` otherwise. -/
def removeFile (stat : Option Nat) : Except FsError Unit :=
  match stat with
  | some _ => .ok ()
  | none => .error .notFound

/-- `cleanupTempFile`: try to remove the file; a `NotFound` error is
silently tolerated and any other error is only logged — no error ever
escapes, so the result is always `.ok` and the file is always absent
afterwards. -/
def cleanupTempFile (stat : Option Nat) : Except FsError (Option Nat) :=
  match removeFile stat with
  | .ok _ => .ok none
  | .error _ => .ok stat

/-- `extractSnapshotsFromVideo`: both ffmpeg runs happen in parallel and
both must succeed, otherwise the function throws. -/
def extractSnapshotsFromVideo (env : PipelineEnv) : Except String Unit :=
  if env.ffmpegJpgOk && env.ffmpegGifOk then .ok ()
  else .error "Failed to create snapshots from video"

/-- The `try` body of `downloadAndExtractFromVideo`: run yt-dlp, verify
the downloaded file (exit status alone is not trusted), then extract.
Returns the events that occurred alongside the result. -/
def downloadAndExtractBody (env : PipelineEnv) (videoId : String) :
    Except String YouTubeSnapshotResult × List PipelineEvent :=
  let jpgFilename := "youtube-" ++ videoId ++ "-" ++ env.timestamp ++ ".jpg"
  let gifFilename := "youtube-" ++ videoId ++ "-" ++ env.timestamp ++ ".gif"
  if env.ytdlpSuccess && isValidVideoFile env.tempFileStat then
    match extractSnapshotsFromVideo env with
    | .ok _ =>
      (.ok { jpgFilename := jpgFilename, gifFilename := gifFilename },
        [.downloadAttempt, .extractAttempt])
    | .error e => (.error e, [.downloadAttempt, .extractAttempt])
  else
    (.error "Failed to download video segment", [.downloadAttempt])

structure StepOutcome where
  result : Except String YouTubeSnapshotResult
  tempStat : Option Nat
  events : List PipelineEvent
deriving Repr

/-- `downloadAndExtractFromVideo`: the body above wrapped in the
`catch` (any failure is collapsed to "All snapshot methods failed") and
the `finally` (the temporary file is cleaned up on every path). -/
def downloadAndExtractFromVideo (env : PipelineEnv) (videoId : String) : StepOutcome :=
  let body := downloadAndExtractBody env videoId
  let res : Except String YouTubeSnapshotResult :=
    match body.1 with
    | .ok r => .ok r
    | .error _ => .error "All snapshot methods failed"
  let cleaned : Option Nat :=
    match cleanupTempFile env.tempFileStat with
    | .ok s => s
    | .error _ => env.tempFileStat
  { result := res, tempStat := cleaned, events := body.2 ++ [.cleanupTemp] }

/-- `getYouTubeThumbnail`: fetch the best thumbnail (throwing when every
candidate URL fails), write it as the JPG, then derive a static GIF. -/
def getYouTubeThumbnail (env : PipelineEnv) (videoId : String) :
    Except String YouTubeSnapshotResult :=
  let jpgFilename := "youtube-" ++ videoId ++ "-" ++ env.timestamp ++ ".jpg"
  let gifFilename := "youtube-" ++ videoId ++ "-" ++ env.timestamp ++ ".gif"
  if env.thumbnailFetchOk then
    if env.staticGifOk then
      .ok { jpgFilename := jpgFilename, gifFilename := gifFilename }
    else .error "Failed to create static GIF from thumbnail"
  else .error "Failed to download any YouTube thumbnail"

/-- `takeYouTubeSnapshot`: resolve the video id (an unextractable id is
an immediate error), try the thumbnail fast path, and only on its
failure run the segment-download fallback. -/
def takeYouTubeSnapshot (env : PipelineEnv) (videoUrl : String) : StepOutcome :=
  match extractYouTubeVideoId videoUrl with
  | none => { result := .error "Invalid YouTube URL", tempStat := none, events := [] }
  | some videoId =>
    match getYouTubeThumbnail env videoId with
    | .ok r => { result := .ok r, tempStat := none, events := [.thumbnailAttempt] }
    | .error _ =>
      let o := downloadAndExtractFromVideo env videoId
      { result := o.result, tempStat := o.tempStat,
        events := .thumbnailAttempt :: o.events }

/-- Stage 1 of the YouTube pipeline succeeds: thumbnail fetched and the
static GIF derived from it. -/
def thumbnailStageOk (env : PipelineEnv) : Bool :=
  env.thumbnailFetchOk && env.staticGifOk

/-- Stage 2 of the YouTube pipeline succeeds: yt-dlp exits successfully,
the file it produced is present and non-empty, and both extractions
succeed. -/
def segmentStageOk (env : PipelineEnv) : Bool :=
  env.ytdlpSuccess && isValidVideoFile env.tempFileStat &&
    env.ffmpegJpgOk && env.ffmpegGifOk

/-! ## Retention cleaner (`cleanupOldSnapshots`, both services)

Both services share one algorithm: list the directory, keep the entries
that are files whose name starts with the service prefix, sort ascending
and reverse (newest first, timestamps are lexicographically sortable),
and delete everything beyond the first `maxFiles`.  The modern versions
attempt each deletion independently inside its own `try`; the historical
variant (second concatenated version of `webcam-snapshot.ts`) deletes in
a plain loop so one failure aborts the remaining deletions.  Both wrap
everything in an outer `catch` that swallows all errors. -/

structure DirEntry where
  name : String
  isFile : Bool
deriving DecidableEq, Repr

def matchingFiles (entries : List DirEntry) (pre : String) : List String :=
  (entries.filter fun e => e.isFile && strStartsWith e.name pre).map (·.name)

/-- Lexicographic (code-point) order on character lists — the string
comparison JavaScript `Array.prototype.sort()` uses by default. -/
def charsLe : List Char → List Char → Bool
  | [], _ => true
  | _ :: _, [] => false
  | a :: as, b :: bs => if a = b then charsLe as bs else decide (a < b)

/-- Strict lexicographic order on character lists. -/
def charsLt : List Char → List Char → Bool
  | _, [] => false
  | [], _ :: _ => true
  | a :: as, b :: bs => if a = b then charsLt as bs else decide (a < b)

def strLe (a b : String) : Bool := charsLe a.toList b.toList

def strLt (a b : String) : Bool := charsLt a.toList b.toList

def strLeProp (a b : String) : Prop := strLe a b = true

instance : DecidableRel strLeProp :=
  fun a b => inferInstanceAs (Decidable (strLe a b = true))

lemma charsLe_total : ∀ x y : List Char, charsLe x y = true ∨ charsLe y x = true := by
  intro x
  induction x with
  | nil => intro y; left; rfl
  | cons a as ih =>
    intro y
    cases y with
    | nil => right; rfl
    | cons b bs =>
      show (if a = b then charsLe as bs else decide (a < b)) = true ∨
        (if b = a then charsLe bs as else decide (b < a)) = true
      by_cases hab : a = b
      · subst hab
        rw [if_pos rfl, if_pos rfl]
        exact ih bs
      · rw [if_neg hab, if_neg (Ne.symm hab)]
        rcases lt_or_gt_of_ne hab with h | h
        · left; exact decide_eq_true h
        · right; exact decide_eq_true h

lemma charsLe_trans : ∀ x y z : List Char,
    charsLe x y = true → charsLe y z = true → charsLe x z = true := by
  intro x
  induction x with
  | nil => intro y z _ _; rfl
  | cons a as ih =>
    intro y z hxy hyz
    cases y with
    | nil => exact absurd hxy (by simp [charsLe])
    | cons b bs =>
      cases z with
      | nil => exact absurd hyz (by simp [charsLe])
      | cons c cs =>
        change (if a = b then charsLe as bs else decide (a < b)) = true at hxy
        change (if b = c then charsLe bs cs else decide (b < c)) = true at hyz
        show (if a = c then charsLe as cs else decide (a < c)) = true
        by_cases hab : a = b
        · subst hab
          rw [if_pos rfl] at hxy
          by_cases hac : a = c
          · subst hac
            rw [if_pos rfl] at hyz ⊢
            exact ih bs cs hxy hyz
          · rw [if_neg hac] at hyz ⊢
            exact hyz
        · rw [if_neg hab] at hxy
          have hab' : a < b := of_decide_eq_true hxy
          by_cases hbc : b = c
          · subst hbc
            rw [if_neg hab]
            exact decide_eq_true hab'
          · rw [if_neg hbc] at hyz
            have hbc' : b < c := of_decide_eq_true hyz
            have hac : a < c := lt_trans hab' hbc'
            rw [if_neg (ne_of_lt hac)]
            exact decide_eq_true hac

lemma charsLt_of_le_of_ne : ∀ x y : List Char,
    charsLe x y = true → x ≠ y → charsLt x y = true := by
  intro x
  induction x with
  | nil =>
    intro y _ hne
    cases y with
    | nil => exact absurd rfl hne
    | cons b bs => rfl
  | cons a as ih =>
    intro y hxy hne
    cases y with
    | nil => exact absurd hxy (by simp [charsLe])
    | cons b bs =>
      change (if a = b then charsLe as bs else decide (a < b)) = true at hxy
      show (if a = b then charsLt as bs else decide (a < b)) = true
      by_cases hab : a = b
      · subst hab
        rw [if_pos rfl] at hxy ⊢
        exact ih bs hxy (fun h => hne (by rw [h]))
      · rw [if_neg hab] at hxy ⊢
        exact hxy

instance : IsTotal String strLeProp :=
  ⟨fun a b => charsLe_total a.toList b.toList⟩

instance : IsTrans String strLeProp :=
  ⟨fun a b c hab hbc => charsLe_trans a.toList b.toList c.toList hab hbc⟩

lemma strLt_of_le_of_ne (a b : String) (hle : strLe a b = true) (hne : a ≠ b) :
    strLt a b = true := by
  refine charsLt_of_le_of_ne a.toList b.toList hle fun hl => hne ?_
  cases a
  cases b
  exact congrArg String.mk hl

/-- `files.sort().reverse()` — ascending lexicographic sort, reversed. -/
def sortedNewestFirst (files : List String) : List String :=
  (List.insertionSort strLeProp files).reverse

/-- `sortedFiles.slice(maxFiles)` — everything beyond the keep limit. -/
def filesToDelete (entries : List DirEntry) (pre : String) (maxFiles : Nat) : List String :=
  (sortedNewestFirst (matchingFiles entries pre)).drop maxFiles

/-- The entries that survive the cut. -/
def keptFiles (entries : List DirEntry) (pre : String) (maxFiles : Nat) : List String :=
  (sortedNewestFirst (matchingFiles entries pre)).take maxFiles

/-- Failure environment for a cleanup run: whether the directory listing
succeeds, and which individual paths can be deleted. -/
structure CleanupEnv where
  readDirOk : Bool
  deleteOk : String → Bool

/-- One deletion attempt in the modern cleanup: the per-file `try`
swallows the error, so a failed deletion leaves the directory as is. -/
def attemptDelete (env : CleanupEnv) (entries : List DirEntry) (f : String) : List DirEntry :=
  if env.deleteOk f then entries.filter fun e => e.name ≠ f else entries

/-- The body of the modern cleanup before the outer `catch`: reading the
directory can fail; each deletion is attempted independently. -/
def cleanupBody (env : CleanupEnv) (entries : List DirEntry) (pre : String)
    (maxFiles : Nat) : Except String (List DirEntry) :=
  if env.readDirOk then
    .ok ((filesToDelete entries pre maxFiles).foldl (attemptDelete env) entries)
  else .error "readDir failed"

/-- `cleanupOldSnapshots` (modern, both services): the outer `catch`
logs and swallows any error, so the caller always gets `.ok`. -/
def cleanupOldSnapshots (env : CleanupEnv) (entries : List DirEntry) (pre : String)
    (maxFiles : Nat) : Except String (List DirEntry) :=
  match cleanupBody env entries pre maxFiles with
  | .ok s => .ok s
  | .error _ => .ok entries

/-- Deletion loop of the historical variant: no per-file `try`, so the
first failing deletion aborts the loop; the error value carries the
directory state reached so far. -/
def variantDeleteLoop (env : CleanupEnv) :
    List String → List DirEntry → Except (List DirEntry) (List DirEntry)
  | [], entries => .ok entries
  | f :: fs, entries =>
    if env.deleteOk f then
      variantDeleteLoop env fs (entries.filter fun e => e.name ≠ f)
    else .error entries

/-- Historical `cleanupOldSnapshots` variant (keep count hardcoded to
100, prefix `snapshot-`): the outer `catch` still swallows the error, so
the caller sees `.ok`, but deletions after a failure never happen. -/
def cleanupOldSnapshotsVariant (env : CleanupEnv) (entries : List DirEntry) :
    Except String (List DirEntry) :=
  if env.readDirOk then
    match variantDeleteLoop env (filesToDelete entries "snapshot-" 100) entries with
    | .ok s => .ok s
    | .error s => .ok s
  else .ok entries

/-! ## Webcam snapshot pipeline (`takeSnapshot`, current version) -/

structure WebcamEnv where
  jpgOk : Bool
  gifOk : Bool
  timestamp : String
deriving DecidableEq, Repr

/-- `takeSnapshot`: one timestamp, paired filenames, JPG and GIF capture
run in parallel against the stream; either failure fails the call. -/
def takeSnapshot (env : WebcamEnv) : Except String YouTubeSnapshotResult :=
  let jpgFilename := "snapshot-" ++ env.timestamp ++ ".jpg"
  let gifFilename := "snapshot-" ++ env.timestamp ++ ".gif"
  if env.jpgOk then
    if env.gifOk then .ok { jpgFilename := jpgFilename, gifFilename := gifFilename }
    else .error "Failed to process video: Failed to gif capture"
  else .error "Failed to process video: Failed to jpg capture"

/-! ## HTTP layer: responses, redirect/snapshot endpoints -/

structure HttpResponse where
  status : Nat
  contentType : Option String
  body : String
  location : Option String
deriving DecidableEq, Repr

/-- `JSON.stringify({ error: message })` for escape-free messages. -/
def jsonErrorBody (msg : String) : String :=
  "\x7b\"error\":\"" ++ msg ++ "\"\x7d"

/-- `createErrorResponse` at its default status 500. -/
def createErrorResponse (msg : String) : HttpResponse :=
  { status := 500, contentType := some "application/json",
    body := jsonErrorBody msg, location := none }

def publicUrl : String := "http://localhost:3000"

def jsonUrlsBody (base : String) (r : YouTubeSnapshotResult) : String :=
  "\x7b\"jpgUrl\":\"" ++ publicUrl ++ base ++ r.jpgFilename ++
    "\",\"gifUrl\":\"" ++ publicUrl ++ base ++ r.gifFilename ++ "\"\x7d"

def missingUrlResponse : HttpResponse :=
  { status := 400, contentType := none, body := "Missing url parameter", location := none }

def badFormatResponse : HttpResponse :=
  { status := 400, contentType := none,
    body := "Format must be either jpg or gif", location := none }

/-- `url.searchParams.get('format')?.toLowerCase() || 'jpg'`: an absent
parameter and the empty string both fall back to `jpg` (the empty string
is falsy in JavaScript); otherwise the lowercased value is used. -/
def effectiveFormat (p : Option String) : String :=
  match p with
  | none => "jpg"
  | some s => if strToLower s = "" then "jpg" else strToLower s

def isValidFormat (f : String) : Bool :=
  f == "jpg" || f == "gif"

/-- `handleRedirectEndpoint` (webcam): missing url → 400; invalid format
→ 400; otherwise capture and redirect to the requested artifact. -/
def handleRedirectEndpoint (env : WebcamEnv) (urlParam fmtParam : Option String) :
    HttpResponse :=
  match urlParam with
  | none => missingUrlResponse
  | some _ =>
    let format := effectiveFormat fmtParam
    if isValidFormat format then
      match takeSnapshot env with
      | .ok r =>
        { status := 302, contentType := none, body := "",
          location := some ("/images/" ++
            (if format = "jpg" then r.jpgFilename else r.gifFilename)) }
      | .error e => createErrorResponse e
    else badFormatResponse

/-- `handleYouTubeRedirectEndpoint`: same shape against the YouTube
pipeline and the `/youtube-snapshot/images/` path. -/
def handleYouTubeRedirectEndpoint (env : PipelineEnv) (urlParam fmtParam : Option String) :
    HttpResponse :=
  match urlParam with
  | none => missingUrlResponse
  | some u =>
    let format := effectiveFormat fmtParam
    if isValidFormat format then
      match (takeYouTubeSnapshot env u).result with
      | .ok r =>
        { status := 302, contentType := none, body := "",
          location := some ("/youtube-snapshot/images/" ++
            (if format = "jpg" then r.jpgFilename else r.gifFilename)) }
      | .error e => createErrorResponse e
    else badFormatResponse

/-- `handleYouTubeSnapshotEndpoint`: missing url → 400; otherwise run
the pipeline and answer 200 with the pair of URLs or the error as a 500
JSON response. -/
def handleYouTubeSnapshotEndpoint (env : PipelineEnv) (urlParam : Option String) :
    HttpResponse :=
  match urlParam with
  | none => missingUrlResponse
  | some u =>
    match (takeYouTubeSnapshot env u).result with
    | .ok r =>
      { status := 200, contentType := some "application/json",
        body := jsonUrlsBody "/youtube-snapshot/images/" r, location := none }
    | .error e => createErrorResponse e

/-! ## CORS helpers (`getAllowedOrigin`, `corsHeaders`) -/

structure UrlParts where
  protocol : String
  hostname : String
deriving DecidableEq, Repr

/-- Split a character list at the first occurrence of `://`. -/
def breakAtSchemeSep : List Char → Option (List Char × List Char)
  | ':' :: '/' :: '/' :: rest => some ([], rest)
  | c :: cs =>
    match breakAtSchemeSep cs with
    | none => none
    | some p => some (c :: p.1, p.2)
  | [] => none

/-- Model of `new URL(origin)` restricted to what the CORS check reads:
it fails on strings without a scheme separator, and otherwise exposes
the scheme and the hostname (authority up to `/`, port stripped). -/
def parseOriginUrl (o : String) : Option UrlParts :=
  match breakAtSchemeSep o.toList with
  | none => none
  | some (scheme, rest) =>
    if scheme.isEmpty then none
    else
      let hostport := rest.takeWhile (· ≠ '/')
      some { protocol := String.mk scheme ++ ":",
             hostname := String.mk (hostport.takeWhile (· ≠ ':')) }

/-- `getAllowedOrigin`: parse the Origin header and echo it back exactly
when its hostname is `yayproject.com` or a subdomain thereof.  Note the
scheme is never inspected. -/
def getAllowedOrigin (origin : Option String) : Option String :=
  match origin with
  | none => none
  | some o =>
    match parseOriginUrl o with
    | none => none
    | some u =>
      if u.hostname == "yayproject.com" || strEndsWith u.hostname ".yayproject.com" then
        some o
      else none

/-- `corsHeaders`: the four headers on a match, nothing otherwise. -/
def corsHeaders (origin : Option String) : List (String × String) :=
  match getAllowedOrigin origin with
  | none => []
  | some o =>
    [("Access-Control-Allow-Origin", o),
     ("Access-Control-Allow-Methods", "GET, OPTIONS"),
     ("Access-Control-Allow-Headers", "Content-Type"),
     ("Vary", "Origin")]

/-- The allow-condition exactly as the specification words it: an
`https://` URL whose hostname equals the fixed root domain or is a
subdomain of it.  Stated from the spec for comparison with
`getAllowedOrigin`, which was translated from the code. -/
def specAllowedOrigin (o : String) : Bool :=
  strStartsWith o "https://" &&
    (match parseOriginUrl o with
     | none => false
     | some u =>
       u.hostname == "yayproject.com" || strEndsWith u.hostname ".yayproject.com")

/-! ## Theorems -/

/-- C1: whenever a video id is extractable from the URL, the pipeline
attempts the thumbnail fast path first; the segment-download fallback
runs exactly when the thumbnail stage fails; the call succeeds exactly
when one of the two stages succeeds, and any surfaced failure is the
single message "All snapshot methods failed", which happens only after
both stages have failed. -/
theorem youtube_fallback_order (env : PipelineEnv) (url id : String)
    (h : extractYouTubeVideoId url = some id) :
    ((takeYouTubeSnapshot env url).events).head? = some PipelineEvent.thumbnailAttempt ∧
    (PipelineEvent.downloadAttempt ∈ (takeYouTubeSnapshot env url).events ↔
      thumbnailStageOk env = false) ∧
    ((takeYouTubeSnapshot env url).result.isOk =
      (thumbnailStageOk env || segmentStageOk env)) ∧
    (∀ e, (takeYouTubeSnapshot env url).result = .error e →
      e = "All snapshot methods failed" ∧
        thumbnailStageOk env = false ∧ segmentStageOk env = false) := by
  obtain ⟨tf, sg, yd, st, fj, fg, ts⟩ := env
  cases tf <;> cases sg <;> cases yd <;> cases fj <;> cases fg <;>
    cases hv : isValidVideoFile st <;>
      simp_all [takeYouTubeSnapshot, h, getYouTubeThumbnail, thumbnailStageOk,
        segmentStageOk, downloadAndExtractFromVideo, downloadAndExtractBody,
        extractSnapshotsFromVideo, cleanupTempFile, removeFile, Except.isOk,
        Except.toBool]

/-- A concrete environment in which the thumbnail stage fails and the
segment stage succeeds; used by witnesses. -/
def sampleEnvA : PipelineEnv :=
  { thumbnailFetchOk := false, staticGifOk := false, ytdlpSuccess := true,
    tempFileStat := some 5, ffmpegJpgOk := true, ffmpegGifOk := true,
    timestamp := "2025-01-01T00-00-00-000Z" }

/-- Witness for C1 at a concrete environment and URL. -/
theorem youtube_fallback_order_witness :
    extractYouTubeVideoId "https://youtu.be/dQw4w9WgXcQ" = some "dQw4w9WgXcQ" ∧
    ((takeYouTubeSnapshot sampleEnvA "https://youtu.be/dQw4w9WgXcQ").events).head? =
      some PipelineEvent.thumbnailAttempt :=
  ⟨by decide,
   (youtube_fallback_order sampleEnvA "https://youtu.be/dQw4w9WgXcQ" "dQw4w9WgXcQ"
     (by decide)).1⟩

/-- C2: in every run of the segment-download fallback the temporary
media file is absent afterwards, the cleanup step is the final event on
every exit path, and `cleanupTempFile` itself never lets an error
escape — in particular an already-absent file is tolerated. -/
theorem youtube_tempfile_cleanup (env : PipelineEnv) (videoId : String) :
    (downloadAndExtractFromVideo env videoId).tempStat = none ∧
    ((downloadAndExtractFromVideo env videoId).events).getLast? =
      some PipelineEvent.cleanupTemp ∧
    (∀ stat : Option Nat, cleanupTempFile stat = .ok none) := by
  have hclean : ∀ stat : Option Nat, cleanupTempFile stat = .ok none := by
    intro stat
    cases stat <;> rfl
  refine ⟨?_, ?_, hclean⟩
  · simp [downloadAndExtractFromVideo, hclean]
  · simp [downloadAndExtractFromVideo]

/-- C3: in the segment-download fallback, extraction is attempted
exactly when yt-dlp reported success and the downloaded file exists with
positive size; otherwise — including a successful exit status paired
with a missing or empty file — the download-failure branch throws.  The
validity check itself rejects a missing file and a zero-size file and
accepts any positive size. -/
theorem youtube_download_validity_gate (env : PipelineEnv) (videoId : String) :
    (PipelineEvent.extractAttempt ∈ (downloadAndExtractFromVideo env videoId).events ↔
      (env.ytdlpSuccess && isValidVideoFile env.tempFileStat) = true) ∧
    ((downloadAndExtractBody env videoId).1 = .error "Failed to download video segment" ↔
      (env.ytdlpSuccess && isValidVideoFile env.tempFileStat) = false) ∧
    isValidVideoFile none = false ∧
    isValidVideoFile (some 0) = false ∧
    (∀ n : Nat, isValidVideoFile (some (n + 1)) = true) := by
  obtain ⟨tf, sg, yd, st, fj, fg, ts⟩ := env
  refine ⟨?_, ?_, rfl, rfl, fun n => by simp [isValidVideoFile]⟩ <;>
    cases yd <;> cases fj <;> cases fg <;> cases hv : isValidVideoFile st <;>
      simp_all [downloadAndExtractFromVideo, downloadAndExtractBody,
        extractSnapshotsFromVideo]

/-- C7: a present `url` parameter from which no video id can be
extracted is answered with status 500, Content-Type application/json and
body `{"error":"Invalid YouTube URL"}` — produced by the very same
`createErrorResponse` path that renders every downstream capture
failure. -/
theorem youtube_invalid_url_500 (env : PipelineEnv) (u : String)
    (h : extractYouTubeVideoId u = none) :
    handleYouTubeSnapshotEndpoint env (some u) = createErrorResponse "Invalid YouTube URL" ∧
    (handleYouTubeSnapshotEndpoint env (some u)).status = 500 ∧
    (handleYouTubeSnapshotEndpoint env (some u)).contentType = some "application/json" ∧
    (handleYouTubeSnapshotEndpoint env (some u)).body = jsonErrorBody "Invalid YouTube URL" ∧
    (∀ (env₂ : PipelineEnv) (u₂ e : String),
      (takeYouTubeSnapshot env₂ u₂).result = .error e →
      handleYouTubeSnapshotEndpoint env₂ (some u₂) = createErrorResponse e) := by
  have hmain : handleYouTubeSnapshotEndpoint env (some u) =
      createErrorResponse "Invalid YouTube URL" := by
    simp [handleYouTubeSnapshotEndpoint, takeYouTubeSnapshot, h]
  refine ⟨hmain, by rw [hmain]; rfl, by rw [hmain]; rfl, by rw [hmain]; rfl, ?_⟩
  intro env₂ u₂ e he
  simp [handleYouTubeSnapshotEndpoint, he]

/-- Witness for C7 at a non-YouTube URL. -/
theorem youtube_invalid_url_500_witness :
    extractYouTubeVideoId "https://vimeo.com/123456789" = none ∧
    handleYouTubeSnapshotEndpoint sampleEnvA (some "https://vimeo.com/123456789") =
      createErrorResponse "Invalid YouTube URL" :=
  ⟨by decide,
   (youtube_invalid_url_500 sampleEnvA "https://vimeo.com/123456789" (by decide)).1⟩

/-- C8: every successful capture returns a still/loop pair built from a
single prefix-plus-timestamp stem, with only the extension differing:
`snapshot-<timestamp>` for the webcam pipeline and
`youtube-<id>-<timestamp>` for both YouTube paths. -/
theorem snapshot_filename_pairing :
    (∀ (we : WebcamEnv) (r : YouTubeSnapshotResult), takeSnapshot we = .ok r →
      ∃ stem, r.jpgFilename = stem ++ ".jpg" ∧ r.gifFilename = stem ++ ".gif" ∧
        stem = "snapshot-" ++ we.timestamp) ∧
    (∀ (env : PipelineEnv) (url : String) (r : YouTubeSnapshotResult),
      (takeYouTubeSnapshot env url).result = .ok r →
      ∃ id stem, extractYouTubeVideoId url = some id ∧
        r.jpgFilename = stem ++ ".jpg" ∧ r.gifFilename = stem ++ ".gif" ∧
        stem = "youtube-" ++ id ++ "-" ++ env.timestamp) := by
  constructor
  · intro we r h
    obtain ⟨rj, rg⟩ := r
    obtain ⟨j, g, ts⟩ := we
    refine ⟨"snapshot-" ++ ts, ?_⟩
    cases j <;> cases g <;> simp_all [takeSnapshot]
  · intro env url r h
    obtain ⟨rj, rg⟩ := r
    cases hx : extractYouTubeVideoId url with
    | none => simp [takeYouTubeSnapshot, hx] at h
    | some id =>
      refine ⟨id, "youtube-" ++ id ++ "-" ++ env.timestamp, rfl, ?_⟩
      obtain ⟨tf, sg, yd, st, fj, fg, ts⟩ := env
      cases tf <;> cases sg <;> cases yd <;> cases fj <;> cases fg <;>
        cases hv : isValidVideoFile st <;>
          simp_all [takeYouTubeSnapshot, hx, getYouTubeThumbnail,
            downloadAndExtractFromVideo, downloadAndExtractBody,
            extractSnapshotsFromVideo]

/-- Witness for C8: both pipelines at concrete successful environments. -/
theorem snapshot_filename_pairing_witness :
    (takeSnapshot { jpgOk := true, gifOk := true, timestamp := "T1" } =
      .ok { jpgFilename := "snapshot-T1.jpg", gifFilename := "snapshot-T1.gif" } ∧
      ∃ stem, "snapshot-T1.jpg" = stem ++ ".jpg" ∧ "snapshot-T1.gif" = stem ++ ".gif" ∧
        stem = "snapshot-" ++ "T1") ∧
    ((takeYouTubeSnapshot sampleEnvA "https://youtu.be/dQw4w9WgXcQ").result =
      .ok { jpgFilename := "youtube-dQw4w9WgXcQ-2025-01-01T00-00-00-000Z.jpg",
            gifFilename := "youtube-dQw4w9WgXcQ-2025-01-01T00-00-00-000Z.gif" } ∧
      ∃ id stem, extractYouTubeVideoId "https://youtu.be/dQw4w9WgXcQ" = some id ∧
        "youtube-dQw4w9WgXcQ-2025-01-01T00-00-00-000Z.jpg" = stem ++ ".jpg" ∧
        "youtube-dQw4w9WgXcQ-2025-01-01T00-00-00-000Z.gif" = stem ++ ".gif" ∧
        stem = "youtube-" ++ id ++ "-" ++ sampleEnvA.timestamp) :=
  ⟨⟨rfl,
    snapshot_filename_pairing.1
      { jpgOk := true, gifOk := true, timestamp := "T1" }
      { jpgFilename := "snapshot-T1.jpg", gifFilename := "snapshot-T1.gif" } rfl⟩,
   ⟨rfl,
    snapshot_filename_pairing.2 sampleEnvA "https://youtu.be/dQw4w9WgXcQ"
      { jpgFilename := "youtube-dQw4w9WgXcQ-2025-01-01T00-00-00-000Z.jpg",
        gifFilename := "youtube-dQw4w9WgXcQ-2025-01-01T00-00-00-000Z.gif" } rfl⟩⟩

/-! ### Retention-cleaner lemmas -/

lemma sortedNewestFirst_perm (files : List String) :
    (sortedNewestFirst files).Perm files :=
  ((List.insertionSort strLeProp files).reverse_perm).trans
    (List.perm_insertionSort strLeProp files)

lemma sortedNewestFirst_sorted (files : List String) :
    (sortedNewestFirst files).Sorted fun a b => strLeProp b a := by
  have h := List.sorted_insertionSort strLeProp files
  exact List.pairwise_reverse.mpr h

lemma sortedNewestFirst_length (files : List String) :
    (sortedNewestFirst files).length = files.length :=
  (sortedNewestFirst_perm files).length_eq

/-- In a sorted-descending duplicate-free listing, everything beyond the
keep cut is strictly below everything kept. -/
lemma drop_lt_take_of_sorted (files : List String) (hnd : files.Nodup) (m : Nat) :
    ∀ d ∈ (sortedNewestFirst files).drop m,
      ∀ k ∈ (sortedNewestFirst files).take m, strLt d k = true := by
  intro d hd k hk
  have hs := sortedNewestFirst_sorted files
  have hge : strLeProp d k := hs.rel_of_mem_take_of_mem_drop hk hd
  have hnd' : (sortedNewestFirst files).Nodup :=
    ((sortedNewestFirst_perm files).nodup_iff).mpr hnd
  have hsplit := List.take_append_drop m (sortedNewestFirst files)
  rw [← hsplit] at hnd'
  have hdisj := (List.nodup_append.mp hnd').2.2
  have hne : d ≠ k := fun he => hdisj hk (he ▸ hd)
  exact strLt_of_le_of_ne d k hge hne

lemma mem_matchingFiles_startsWith (entries : List DirEntry) (pre : String)
    (f : String) (hf : f ∈ matchingFiles entries pre) : strStartsWith f pre = true := by
  simp only [matchingFiles, List.mem_map, List.mem_filter] at hf
  obtain ⟨e, ⟨_, he⟩, rfl⟩ := hf
  exact (Bool.and_eq_true _ _).mp he |>.2

/-- Folding the all-successful per-file deletions filters out exactly
the names in the delete list. -/
lemma foldl_attemptDelete_allOk (env : CleanupEnv) (hall : ∀ f, env.deleteOk f = true) :
    ∀ (l : List String) (es : List DirEntry),
      l.foldl (attemptDelete env) es = es.filter fun e => !(l.contains e.name) := by
  intro l
  induction l with
  | nil => intro es; simp [List.filter_eq_self]
  | cons a l ih =>
    intro es
    rw [List.foldl_cons, ih, attemptDelete, hall a, if_pos rfl, List.filter_filter]
    apply List.filter_congr
    intro e _
    rw [List.contains_cons, Bool.not_or]
    cases hea : e.name == a
    · have hne : e.name ≠ a := by simpa using hea
      simp [hne, hea]
    · have heq : e.name = a := by simpa using hea
      simp [heq]

/-- C4: with 105 duplicate-free matching files the cleaner deletes
exactly 5 and keeps exactly 100, every deleted name lies strictly below
every kept name, keep + delete is a permutation of the matching files;
with at most 100 matching files nothing is deleted; a file not carrying
the prefix is never in the delete list; and when every deletion
succeeds the directory afterwards is exactly the original minus the
delete list. -/
theorem retention_keeps_newest (entries : List DirEntry) (pre : String)
    (hnd : (matchingFiles entries pre).Nodup)
    (hlen : (matchingFiles entries pre).length = 105) :
    (filesToDelete entries pre 100).length = 5 ∧
    (keptFiles entries pre 100).length = 100 ∧
    (keptFiles entries pre 100 ++ filesToDelete entries pre 100).Perm
      (matchingFiles entries pre) ∧
    (∀ d ∈ filesToDelete entries pre 100, ∀ k ∈ keptFiles entries pre 100,
      strLt d k = true) ∧
    (∀ (entries₂ : List DirEntry) (pre₂ : String),
      (matchingFiles entries₂ pre₂).length ≤ 100 →
      filesToDelete entries₂ pre₂ 100 = []) ∧
    (∀ (entries₂ : List DirEntry) (pre₂ : String) (m : Nat) (f : String),
      f ∈ filesToDelete entries₂ pre₂ m → strStartsWith f pre₂ = true) ∧
    (∀ (env : CleanupEnv) (entries₂ : List DirEntry) (pre₂ : String) (m : Nat),
      env.readDirOk = true → (∀ f, env.deleteOk f = true) →
      cleanupOldSnapshots env entries₂ pre₂ m =
        .ok (entries₂.filter fun e => !((filesToDelete entries₂ pre₂ m).contains e.name))) := by
  have hslen : (sortedNewestFirst (matchingFiles entries pre)).length = 105 :=
    (sortedNewestFirst_length _).trans hlen
  refine ⟨?_, ?_, ?_, ?_, ?_, ?_, ?_⟩
  · rw [filesToDelete, List.length_drop, hslen]
  · rw [keptFiles, List.length_take, hslen]
    omega
  · rw [keptFiles, filesToDelete, List.take_append_drop]
    exact sortedNewestFirst_perm _
  · exact fun d hd k hk => drop_lt_take_of_sorted _ hnd 100 d hd k hk
  · intro entries₂ pre₂ hle
    rw [filesToDelete]
    exact List.drop_eq_nil_of_le ((sortedNewestFirst_length _).le.trans hle)
  · intro entries₂ pre₂ m f hf
    exact mem_matchingFiles_startsWith entries₂ pre₂ f
      ((sortedNewestFirst_perm _).mem_iff.mp (List.mem_of_mem_drop hf))
  · intro env entries₂ pre₂ m hrd hall
    rw [cleanupOldSnapshots, cleanupBody, if_pos hrd, foldl_attemptDelete_allOk env hall]

/-- A directory of 105 YouTube snapshot files with sortable names. -/
def entriesY105 : List DirEntry :=
  (List.range 105).map fun i => { name := "youtube-" ++ toString (100 + i), isFile := true }

/-- Witness for C4 at the concrete 105-file directory. -/
theorem retention_keeps_newest_witness :
    (matchingFiles entriesY105 "youtube-").Nodup ∧
    (matchingFiles entriesY105 "youtube-").length = 105 ∧
    (filesToDelete entriesY105 "youtube-" 100).length = 5 :=
  ⟨by decide, by decide,
   (retention_keeps_newest entriesY105 "youtube-" (by decide) (by decide)).1⟩

/-! ### Cleanup error-tolerance lemmas -/

lemma attemptDelete_mem {env : CleanupEnv} {es : List DirEntry} {f : String}
    {e : DirEntry} (he : e ∈ attemptDelete env es f) : e ∈ es := by
  unfold attemptDelete at he
  split at he
  · exact (List.mem_filter.mp he).1
  · exact he

lemma foldl_attemptDelete_absent (env : CleanupEnv) (g : String) :
    ∀ (l : List String) (es : List DirEntry), (∀ e ∈ es, e.name ≠ g) →
      ∀ e ∈ l.foldl (attemptDelete env) es, e.name ≠ g := by
  intro l
  induction l with
  | nil => intro es h e he; exact h e he
  | cons a l ih =>
    intro es h e he
    rw [List.foldl_cons] at he
    exact ih (attemptDelete env es a) (fun e' he' => h e' (attemptDelete_mem he')) e he

/-- Once a deletable name is in the delete list, the per-file-try fold
removes it no matter what happens to the other names. -/
lemma foldl_attemptDelete_removes (env : CleanupEnv) (g : String)
    (hg : env.deleteOk g = true) :
    ∀ (l : List String) (es : List DirEntry), g ∈ l →
      ∀ e ∈ l.foldl (attemptDelete env) es, e.name ≠ g := by
  intro l
  induction l with
  | nil => intro es h; exact absurd h (List.not_mem_nil g)
  | cons a l ih =>
    intro es hmem e he
    rw [List.foldl_cons] at he
    rcases List.mem_cons.mp hmem with rfl | hl
    · refine foldl_attemptDelete_absent env g l (attemptDelete env es g) ?_ e he
      intro e' he'
      rw [attemptDelete, hg, if_pos rfl] at he'
      simpa using (List.mem_filter.mp he').2
    · exact ih (attemptDelete env es a) hl e he

/-- C5 (amended): both the modern cleanup and the historical variant
never surface an error to the caller; and in the modern cleanup each
deletion is attempted independently, so a deletable name beyond the
keep limit is removed regardless of failures on other names.  (The
historical variant does not attempt deletions independently — see the
counterexample.) -/
theorem cleanup_never_raises_amended :
    (∀ (env : CleanupEnv) (entries : List DirEntry) (pre : String) (m : Nat),
      (cleanupOldSnapshots env entries pre m).isOk = true) ∧
    (∀ (env : CleanupEnv) (entries : List DirEntry),
      (cleanupOldSnapshotsVariant env entries).isOk = true) ∧
    (∀ (env : CleanupEnv) (entries : List DirEntry) (pre : String) (m : Nat)
        (g : String) (s : List DirEntry),
      env.readDirOk = true → g ∈ filesToDelete entries pre m → env.deleteOk g = true →
      cleanupOldSnapshots env entries pre m = .ok s →
      ∀ e ∈ s, e.name ≠ g) := by
  refine ⟨?_, ?_, ?_⟩
  · intro env entries pre m
    rw [cleanupOldSnapshots]
    cases cleanupBody env entries pre m <;> rfl
  · intro env entries
    rw [cleanupOldSnapshotsVariant]
    split
    · cases variantDeleteLoop env (filesToDelete entries "snapshot-" 100) entries <;> rfl
    · rfl
  · intro env entries pre m g s hrd hmem hdel hok e he
    rw [cleanupOldSnapshots, cleanupBody, if_pos hrd] at hok
    have hs : s = (filesToDelete entries pre m).foldl (attemptDelete env) entries :=
      (Except.ok.injEq _ _ ▸ congrArg id hok).symm ▸ by
        cases hok
        rfl
    subst hs
    exact foldl_attemptDelete_removes env g hdel _ entries hmem e he

/-- A directory of 102 webcam snapshot files with sortable names. -/
def entriesS102 : List DirEntry :=
  (List.range 102).map fun i => { name := "snapshot-" ++ toString (898 + i), isFile := true }

/-- One undeletable file (the first the variant loop attempts). -/
def envFailB : CleanupEnv :=
  { readDirOk := true, deleteOk := fun f => !(f == "snapshot-899") }

/-- Counterexample for C5 as stated: in the historical cleanup variant,
`snapshot-898` is beyond the keep limit and perfectly deletable, yet
after the run it is still present, because the earlier failure on
`snapshot-899` aborted the remaining deletions.  The modern cleanup in
the same environment does delete it. -/
theorem cleanup_variant_counterexample :
    "snapshot-898" ∈ filesToDelete entriesS102 "snapshot-" 100 ∧
    envFailB.deleteOk "snapshot-898" = true ∧
    cleanupOldSnapshotsVariant envFailB entriesS102 = .ok entriesS102 ∧
    ({ name := "snapshot-898", isFile := true } : DirEntry) ∈ entriesS102 ∧
    cleanupOldSnapshots envFailB entriesS102 "snapshot-" 100 =
      .ok (entriesS102.filter fun e => e.name ≠ "snapshot-898") :=
  ⟨by decide, by decide, rfl, by decide, rfl⟩

def envAllOkC : CleanupEnv := { readDirOk := true, deleteOk := fun _ => true }

/-- The 100 newest snapshot files of `entriesS102`. -/
def keptS100 : List DirEntry :=
  (List.range 100).map fun i => { name := "snapshot-" ++ toString (900 + i), isFile := true }

/-- Witness for the amended C5 at a concrete directory. -/
theorem cleanup_never_raises_amended_witness :
    envAllOkC.readDirOk = true ∧
    "snapshot-898" ∈ filesToDelete entriesS102 "snapshot-" 100 ∧
    envAllOkC.deleteOk "snapshot-898" = true ∧
    cleanupOldSnapshots envAllOkC entriesS102 "snapshot-" 100 = .ok keptS100 ∧
    (∀ e ∈ keptS100, e.name ≠ "snapshot-898") :=
  ⟨rfl, by decide, rfl, rfl,
   cleanup_never_raises_amended.2.2 envAllOkC entriesS102 "snapshot-" 100
     "snapshot-898" keptS100 rfl (by decide) rfl rfl⟩

/-- The hostname condition the code actually checks (scheme ignored). -/
def hostAllowed (o : String) : Bool :=
  match parseOriginUrl o with
  | none => false
  | some u => u.hostname == "yayproject.com" || strEndsWith u.hostname ".yayproject.com"

/-- Counterexample for C9 as stated: the Origin `http://yayproject.com`
is not an `https://` URL, yet the code parses it, matches the hostname
and adds the full set of CORS headers echoing it. -/
theorem cors_https_only_counterexample :
    corsHeaders (some "http://yayproject.com") =
      [("Access-Control-Allow-Origin", "http://yayproject.com"),
       ("Access-Control-Allow-Methods", "GET, OPTIONS"),
       ("Access-Control-Allow-Headers", "Content-Type"),
       ("Vary", "Origin")] ∧
    specAllowedOrigin "http://yayproject.com" = false ∧
    strStartsWith "http://yayproject.com" "https://" = false :=
  ⟨rfl, rfl, rfl⟩

/-- C9 (amended): CORS headers are added if and only if the Origin
header parses as a URL of any scheme whose hostname equals
`yayproject.com` or is a subdomain of it; on a match the exact Origin is
echoed together with the fixed method/header/Vary headers, otherwise no
CORS headers are added (nor when the header is absent). -/
theorem cors_headers_hostname_only (o : String) :
    getAllowedOrigin (some o) = (if hostAllowed o then some o else none) ∧
    getAllowedOrigin none = none ∧
    corsHeaders (some o) =
      (if hostAllowed o then
        [("Access-Control-Allow-Origin", o),
         ("Access-Control-Allow-Methods", "GET, OPTIONS"),
         ("Access-Control-Allow-Headers", "Content-Type"),
         ("Vary", "Origin")]
      else []) ∧
    corsHeaders none = [] := by
  have hga : getAllowedOrigin (some o) = (if hostAllowed o then some o else none) := by
    rw [getAllowedOrigin, hostAllowed]
    cases hp : parseOriginUrl o
    · rfl
    · rfl
  refine ⟨hga, rfl, ?_, rfl⟩
  rw [corsHeaders, hga]
  by_cases h : hostAllowed o = true
  · rw [if_pos h, if_pos h]
  · rw [if_neg h, if_neg h]

/-- C10: for both redirect endpoints the `format` parameter is
lowercased before validation — the response depends on the parameter
only through its lowercase form, a parameter whose lowercase form is
`jpg` or `gif` is never rejected, and the 400 format rejection can only
hit values whose lowercase form is neither. -/
theorem redirect_format_lowercased :
    (∀ (we : WebcamEnv) (u s t : String), strToLower s = strToLower t →
      handleRedirectEndpoint we (some u) (some s) =
        handleRedirectEndpoint we (some u) (some t)) ∧
    (∀ (ye : PipelineEnv) (u s t : String), strToLower s = strToLower t →
      handleYouTubeRedirectEndpoint ye (some u) (some s) =
        handleYouTubeRedirectEndpoint ye (some u) (some t)) ∧
    (∀ (we : WebcamEnv) (u s : String),
      handleRedirectEndpoint we (some u) (some s) = badFormatResponse →
      strToLower s ≠ "jpg" ∧ strToLower s ≠ "gif") ∧
    (∀ (ye : PipelineEnv) (u s : String),
      handleYouTubeRedirectEndpoint ye (some u) (some s) = badFormatResponse →
      strToLower s ≠ "jpg" ∧ strToLower s ≠ "gif") ∧
    (∀ (we : WebcamEnv) (u s : String),
      (strToLower s = "jpg" ∨ strToLower s = "gif") →
      handleRedirectEndpoint we (some u) (some s) ≠ badFormatResponse) := by
  have heff : ∀ s t : String, strToLower s = strToLower t →
      effectiveFormat (some s) = effectiveFormat (some t) := by
    intro s t h
    rw [effectiveFormat, effectiveFormat, h]
  have hvalid_of : ∀ s : String, strToLower s = "jpg" ∨ strToLower s = "gif" →
      isValidFormat (effectiveFormat (some s)) = true := by
    intro s h
    rcases h with h | h <;> rw [effectiveFormat, h] <;> rfl
  have hinvalid : ∀ s : String, isValidFormat (effectiveFormat (some s)) = false →
      strToLower s ≠ "jpg" ∧ strToLower s ≠ "gif" := by
    intro s h
    constructor <;> intro hl <;> rw [effectiveFormat, hl] at h <;> simp [isValidFormat] at h
  refine ⟨?_, ?_, ?_, ?_, ?_⟩
  · intro we u s t h
    rw [handleRedirectEndpoint, handleRedirectEndpoint, heff s t h]
  · intro ye u s t h
    rw [handleYouTubeRedirectEndpoint, handleYouTubeRedirectEndpoint, heff s t h]
  · intro we u s h
    refine hinvalid s ?_
    by_contra hv
    rw [Bool.not_eq_false] at hv
    rw [handleRedirectEndpoint] at h
    simp only [hv, if_true] at h
    cases hts : takeSnapshot we <;> rw [hts] at h <;>
      exact absurd (congrArg HttpResponse.status h) (by simp [createErrorResponse, badFormatResponse])
  · intro ye u s h
    refine hinvalid s ?_
    by_contra hv
    rw [Bool.not_eq_false] at hv
    rw [handleYouTubeRedirectEndpoint] at h
    simp only [hv, if_true] at h
    cases hts : (takeYouTubeSnapshot ye u).result <;> rw [hts] at h <;>
      exact absurd (congrArg HttpResponse.status h) (by simp [createErrorResponse, badFormatResponse])
  · intro we u s h heq
    have hv := hvalid_of s h
    rw [handleRedirectEndpoint] at heq
    simp only [hv, if_true] at heq
    cases hts : takeSnapshot we <;> rw [hts] at heq <;>
      exact absurd (congrArg HttpResponse.status heq) (by simp [createErrorResponse, badFormatResponse])

/-- Witness for C10: `JPG` and `jpg` produce the same response, at a
concrete environment. -/
theorem redirect_format_lowercased_witness :
    strToLower "JPG" = strToLower "jpg" ∧
    handleRedirectEndpoint { jpgOk := true, gifOk := true, timestamp := "T1" }
        (some "http://cam/stream.m3u8") (some "JPG") =
      handleRedirectEndpoint { jpgOk := true, gifOk := true, timestamp := "T1" }
        (some "http://cam/stream.m3u8") (some "jpg") :=
  ⟨by decide,
   redirect_format_lowercased.1 { jpgOk := true, gifOk := true, timestamp := "T1" }
     "http://cam/stream.m3u8" "JPG" "jpg" (by decide)⟩

/-! ### Extractor lemmas -/

/-- The first character of the remainder (if any) stops the capture. -/
def headStop : List Char → Bool
  | [] => true
  | c :: _ => stopChar c

lemma isPrefOf_append_self : ∀ lit x : List Char, isPrefOf lit (lit ++ x) = true := by
  intro lit x
  induction lit with
  | nil => rfl
  | cons a as ih =>
    show (a == a && isPrefOf as (as ++ x)) = true
    simp [ih]

lemma takeWhile_id_append (id tail : List Char)
    (hidc : ∀ c ∈ id, stopChar c = false) (ht : headStop tail = true) :
    (id ++ tail).takeWhile (fun c => !stopChar c) = id := by
  induction id with
  | nil =>
    cases tail with
    | nil => rfl
    | cons c cs =>
      have hc : stopChar c = true := ht
      simp [List.takeWhile_cons, hc]
  | cons a as ih =>
    have ha : stopChar a = false := hidc a (List.mem_cons_self a as)
    have ih' := ih fun c hc => hidc c (List.mem_cons_of_mem a hc)
    simp [List.takeWhile_cons, ha, ih']

lemma tryPattern_eq_none_of_no_pref (lits : List (List Char)) (cs : List Char)
    (h : ∀ lit ∈ lits, isPrefOf lit cs = false) : tryPattern lits cs = none := by
  induction lits with
  | nil => rfl
  | cons lit ls ih =>
    rw [tryPattern, h lit (List.mem_cons_self lit ls)]
    exact ih fun l hl => h l (List.mem_cons_of_mem lit hl)

lemma scanMatch_cons (lits : List (List Char)) (c : Char) (cs : List Char) :
    scanMatch lits (c :: cs) =
      (match tryPattern lits (c :: cs) with
       | some r => some r
       | none => scanMatch lits cs) := rfl

lemma scanMatch_append_skip (lits : List (List Char)) :
    ∀ pre rest : List Char,
      (∀ k, k < pre.length → ∀ lit ∈ lits, isPrefOf lit ((pre ++ rest).drop k) = false) →
      scanMatch lits (pre ++ rest) = scanMatch lits rest := by
  intro pre
  induction pre with
  | nil => intro rest _; rfl
  | cons c cs ih =>
    intro rest h
    have h0 : tryPattern lits (c :: (cs ++ rest)) = none := by
      apply tryPattern_eq_none_of_no_pref
      intro lit hl
      have := h 0 (Nat.succ_pos _) lit hl
      simpa using this
    show scanMatch lits (c :: (cs ++ rest)) = scanMatch lits rest
    rw [scanMatch_cons, h0]
    exact ih rest fun k hk lit hl => by
      have := h (k + 1) (by simp only [List.length_cons]; omega) lit hl
      simpa using this

lemma scanMatch_append_some (lits : List (List Char)) (lit x : List Char)
    (r : List Char) (hlit : lit ≠ []) (h : tryPattern lits (lit ++ x) = some r) :
    scanMatch lits (lit ++ x) = some r := by
  cases lit with
  | nil => exact absurd rfl hlit
  | cons c cs =>
    have h' : tryPattern lits (c :: (cs ++ x)) = some r := by
      rw [← List.cons_append]; exact h
    rw [List.cons_append, scanMatch_cons, h']

lemma tryPattern_self_match (lit : List Char) (ls : List (List Char)) (x : List Char) :
    tryPattern (lit :: ls) (lit ++ x) =
      (if (x.takeWhile fun c => !stopChar c).isEmpty then tryPattern ls (lit ++ x)
       else some (x.takeWhile fun c => !stopChar c)) := by
  rw [tryPattern, isPrefOf_append_self]
  simp [List.drop_left]

lemma containsSeq_cons (lit : List Char) (c : Char) (cs : List Char) :
    containsSeq lit (c :: cs) = (isPrefOf lit (c :: cs) || containsSeq lit cs) := rfl

lemma scanMatch_eq_none_of_not_contains (lits : List (List Char)) :
    ∀ cs : List Char, (∀ lit ∈ lits, containsSeq lit cs = false) →
      scanMatch lits cs = none := by
  intro cs
  induction cs with
  | nil => intro _; rfl
  | cons c cs ih =>
    intro h
    have hsplit : ∀ lit ∈ lits,
        isPrefOf lit (c :: cs) = false ∧ containsSeq lit cs = false := by
      intro lit hl
      have := h lit hl
      rw [containsSeq_cons] at this
      exact Bool.or_eq_false_iff.mp this
    rw [scanMatch_cons, tryPattern_eq_none_of_no_pref lits (c :: cs)
      (fun lit hl => (hsplit lit hl).1)]
    exact ih fun lit hl => (hsplit lit hl).2

lemma extractL_eq (cs : List Char) :
    extractYouTubeVideoIdL cs =
      (match scanMatch watchLits cs with
       | some r => some r
       | none => scanMatch embedLits cs) := rfl

/-- C6: for the recognized URL shapes — any prefix followed by
`youtube.com/watch?v=<id>`, `youtu.be/<id>` or `youtube.com/embed/<id>`,
with the identifier a non-empty run free of `&`, newline, `?`, `#` and
the remainder either empty or starting with one of those stop
characters — the extractor returns exactly the identifier, provided no
pattern literal also occurs earlier (the side conditions below, trivially
met by ordinary URLs); and for non-matching inputs (empty string, plain
text, another domain, a bare watch path with no `v` parameter) it
returns `none` rather than failing. -/
theorem extract_video_id_spec (preW preB preE id tail : List Char)
    (hid : id ≠ []) (hidc : ∀ c ∈ id, stopChar c = false) (ht : headStop tail = true)
    (hpreW : ∀ k, k < preW.length → ∀ lit ∈ watchLits,
      isPrefOf lit ((preW ++ ("youtube.com/watch?v=".toList ++ (id ++ tail))).drop k) = false)
    (hpreB : ∀ k, k < preB.length → ∀ lit ∈ watchLits,
      isPrefOf lit ((preB ++ ("youtu.be/".toList ++ (id ++ tail))).drop k) = false)
    (hnoW : ∀ lit ∈ watchLits,
      containsSeq lit (preE ++ ("youtube.com/embed/".toList ++ (id ++ tail))) = false)
    (hpreE : ∀ k, k < preE.length → ∀ lit ∈ embedLits,
      isPrefOf lit ((preE ++ ("youtube.com/embed/".toList ++ (id ++ tail))).drop k) = false) :
    extractYouTubeVideoIdL (preW ++ ("youtube.com/watch?v=".toList ++ (id ++ tail))) = some id ∧
    extractYouTubeVideoIdL (preB ++ ("youtu.be/".toList ++ (id ++ tail))) = some id ∧
    extractYouTubeVideoIdL (preE ++ ("youtube.com/embed/".toList ++ (id ++ tail))) = some id ∧
    extractYouTubeVideoId "" = none ∧
    extractYouTubeVideoId "not-a-url" = none ∧
    extractYouTubeVideoId "https://vimeo.com/123456789" = none ∧
    extractYouTubeVideoId "https://www.youtube.com/watch" = none := by
  have hcap : ((id ++ tail).takeWhile fun c => !stopChar c) = id :=
    takeWhile_id_append id tail hidc ht
  have hne : id.isEmpty = false := by
    cases id with
    | nil => exact absurd rfl hid
    | cons a as => rfl
  refine ⟨?_, ?_, ?_, by decide, by decide, by decide, by decide⟩
  · -- watch?v= shape
    have h1 : tryPattern watchLits ("youtube.com/watch?v=".toList ++ (id ++ tail)) =
        some id := by
      show tryPattern ("youtube.com/watch?v=".toList :: ["youtu.be/".toList]) _ = some id
      rw [tryPattern_self_match, hcap, hne]
      rfl
    have h2 := scanMatch_append_some watchLits "youtube.com/watch?v=".toList
      (id ++ tail) id (by decide) h1
    rw [extractL_eq, scanMatch_append_skip watchLits preW _ hpreW, h2]
  · -- youtu.be shape
    have h0 : isPrefOf "youtube.com/watch?v=".toList
        ("youtu.be/".toList ++ (id ++ tail)) = false := rfl
    have h1 : tryPattern watchLits ("youtu.be/".toList ++ (id ++ tail)) = some id := by
      show tryPattern ("youtube.com/watch?v=".toList :: ["youtu.be/".toList]) _ = some id
      rw [tryPattern, h0, if_neg Bool.false_ne_true]
      show tryPattern ("youtu.be/".toList :: []) _ = some id
      rw [tryPattern_self_match, hcap, hne]
      rfl
    have h2 := scanMatch_append_some watchLits "youtu.be/".toList
      (id ++ tail) id (by decide) h1
    rw [extractL_eq, scanMatch_append_skip watchLits preB _ hpreB, h2]
  · -- embed shape: pattern 1 finds nothing anywhere, pattern 2 matches
    have h1 : tryPattern embedLits ("youtube.com/embed/".toList ++ (id ++ tail)) =
        some id := by
      show tryPattern ("youtube.com/embed/".toList :: []) _ = some id
      rw [tryPattern_self_match, hcap, hne]
      rfl
    have h2 := scanMatch_append_some embedLits "youtube.com/embed/".toList
      (id ++ tail) id (by decide) h1
    rw [extractL_eq,
      scanMatch_eq_none_of_not_contains watchLits _ hnoW,
      scanMatch_append_skip embedLits preE _ hpreE, h2]

/-- Witness for C6 on concrete URLs with a query-parameter remainder. -/
theorem extract_video_id_spec_witness :
    ("dQw4w9WgXcQ".toList ≠ [] ∧ headStop "&t=42s".toList = true) ∧
    extractYouTubeVideoIdL
      ("https://www.".toList ++ ("youtube.com/watch?v=".toList ++
        ("dQw4w9WgXcQ".toList ++ "&t=42s".toList))) = some "dQw4w9WgXcQ".toList :=
  ⟨⟨by decide, by decide⟩,
   (extract_video_id_spec "https://www.".toList "https://".toList "https://www.".toList
     "dQw4w9WgXcQ".toList "&t=42s".toList (by decide) (by decide) (by decide)
     (by decide) (by decide) (by decide) (by decide)).1⟩
